import Mathlib

/-!
Shallow embedding of the hybrid retrieval engine of `src/api_server.py`
(class `AnalyticsEngine`): the four constraint extractors, the soft intent
flags, and the `search` post-filtering loop.  Python strings are Lean
`String`s processed through their character lists; Python `re` patterns
are hand-rolled scanners over `List Char` reproducing `re.finditer`
(leftmost, non-overlapping) semantics for the concrete patterns in the
source; Python `set`s of strings are `List String` used only through
membership and non-emptiness, matching how the source uses them; Python
exceptions are modelled by `Option`.
-/

/-- Python `\s` on ASCII input: the six whitespace characters. -/
def isPySpace (c : Char) : Bool :=
  c == ' ' || c == '\t' || c == '\n' || c == '\r' || c == '\x0b' || c == '\x0c'

/-- Character class `[\s_]` used by the camera pattern and by `re.split`. -/
def isSpaceUnd (c : Char) : Bool :=
  isPySpace c || c == '_'

/-- Python `\w` on ASCII input: letters, digits, underscore. -/
def isWordCh (c : Char) : Bool :=
  c.isAlphanum || c == '_'

/-- Character class `[A-Z]`. -/
def isUpperAZ (c : Char) : Bool :=
  'A' ≤ c && c ≤ 'Z'

/-- Python `str.lower` on one ASCII character. -/
def lowerCh (c : Char) : Char :=
  if isUpperAZ c then Char.ofNat (c.toNat + 32) else c

/-- Python `str.upper` on one ASCII character. -/
def upperCh (c : Char) : Char :=
  if 'a' ≤ c && c ≤ 'z' then Char.ofNat (c.toNat - 32) else c

/-- Python `str.lower`. -/
def strLower (s : String) : List Char :=
  s.data.map lowerCh

/-- Python `str.upper`. -/
def strUpper (s : String) : List Char :=
  s.data.map upperCh

/-- Greedy `\d*`: maximal run of leading digits, and the remainder. -/
def takeDigits : List Char → List Char × List Char
  | [] => ([], [])
  | c :: cs =>
    if c.isDigit then
      let p := takeDigits cs
      (c :: p.1, p.2)
    else ([], c :: cs)

/-- Greedy `[\s_]*`: drop the maximal run of space/underscore characters. -/
def dropSpaceUnd : List Char → List Char
  | [] => []
  | c :: cs => if isSpaceUnd c then dropSpaceUnd cs else c :: cs

/-- Does the first list start with the second. -/
def startsWithL : List Char → List Char → Bool
  | _, [] => true
  | [], _ :: _ => false
  | a :: as, b :: bs => a == b && startsWithL as bs

/-- Substring test on character lists (Python `pat in hay`). -/
def hasSubL : List Char → List Char → Bool
  | hay, pat =>
    startsWithL hay pat ||
      match hay with
      | [] => false
      | _ :: t => hasSubL t pat

/-- Substring test of a string pattern inside a character list. -/
def hasSub (hay : List Char) (pat : String) : Bool :=
  hasSubL hay pat.data

/-- Numeric value of an all-digit character list (Python `int` on the
digit groups captured by the source's regexes). -/
def toNatD (s : List Char) : ℕ :=
  s.foldl (fun n c => n * 10 + (c.toNat - '0'.toNat)) 0

/-- Python `int` as a fallible parse: succeeds exactly on non-empty digit
strings (the only shape the source feeds it from well-formed rows);
anything else models a raised `ValueError`. -/
def parseNat (s : List Char) : Option ℕ :=
  if s.isEmpty || !s.all Char.isDigit then none else some (toNatD s)

/-- Python `str.split(sep)` with a one-character separator: splits at every
occurrence, keeping empty pieces. -/
def splitOnCh (sep : Char) (cur : List Char) : List Char → List (List Char)
  | [] => [cur.reverse]
  | c :: cs =>
    if c == sep then cur.reverse :: splitOnCh sep [] cs
    else splitOnCh sep (c :: cur) cs

/-! ### Camera extractor (`extract_cam_filters`, api_server.py lines 205-221) -/

/-- Attempt of the pattern `cam(?:era)?[\s_]*(\d+)` at the head of the
input; returns the captured digit group and the remainder after the match.
The `(?:era)?` branch needs no backtracking: when "era" is present and the
greedy path fails, the alternative requires a digit or separator at 'e'
and fails as well. -/
def camMatchAt : List Char → Option (List Char × List Char)
  | 'c' :: 'a' :: 'm' :: rest =>
    let rest2 :=
      match rest with
      | 'e' :: 'r' :: 'a' :: r => r
      | _ => rest
    let rest3 := dropSpaceUnd rest2
    let p := takeDigits rest3
    if p.1.isEmpty then none else some (p.1, p.2)
  | _ => none

/-- Scanner reproducing `re.finditer` for the camera pattern: leftmost
matches, non-overlapping (the first argument counts positions still to be
skipped over after a match). -/
def camScan : ℕ → List Char → List (List Char)
  | _, [] => []
  | n + 1, _ :: cs => camScan n cs
  | 0, c :: cs =>
    match camMatchAt (c :: cs) with
    | some (ds, rest) => ds :: camScan ((c :: cs).length - rest.length - 1) cs
    | none => camScan 0 cs

/-- Zero-padded three-wide decimal rendering (Python `{n:03d}`). -/
def pad3 (n : ℕ) : String :=
  if n < 10 then "00" ++ toString n
  else if n < 100 then "0" ++ toString n
  else toString n

/-- `AnalyticsEngine.extract_cam_filters`: find every `cam(?:era)?[\s_]*(\d+)`
match in the lowered query, strip leading zeros from the digit group (all
zeros collapse to "0"), and render as `CAM_{n:03d}`. -/
def extract_cam_filters (query : String) : List String :=
  (camScan 0 (strLower query)).map (fun ds =>
    let stripped := ds.dropWhile (fun c => c == '0')
    let numStr := if stripped.isEmpty then ['0'] else stripped
    "CAM_" ++ pad3 (toNatD numStr))

lemma sanity_check_01 : extract_cam_filters "show cam 3 and camera_004" = ["CAM_003", "CAM_004"] := by decide
lemma sanity_check_02 : extract_cam_filters "cam 000 cam 0070 camera3" = ["CAM_000", "CAM_070", "CAM_003"] := by decide
lemma sanity_check_03 : extract_cam_filters "no cameras here" = [] := by decide
lemma sanity_check_04 : extract_cam_filters "CAM_012" = ["CAM_012"] := by decide

/-! ### Date extractor (`extract_date_filters`, api_server.py lines 223-263) -/

/-- Calendar date, standing for the value `datetime.now()` (or a parsed
explicit date) reduced to its year/month/day components. -/
structure Date where
  year : ℕ
  month : ℕ
  day : ℕ
deriving DecidableEq, Repr

/-- Gregorian leap-year rule, as used by Python `datetime`. -/
def isLeap (y : ℕ) : Bool :=
  (y % 4 == 0 && y % 100 != 0) || y % 400 == 0

/-- Number of days in a month of a given year. -/
def daysInMonth (y m : ℕ) : ℕ :=
  if m == 2 then (if isLeap y then 29 else 28)
  else if m == 4 || m == 6 || m == 9 || m == 11 then 30
  else 31

/-- Validity test of `datetime(year, month, day)`: the constructor raises
`ValueError` outside these bounds (`MINYEAR = 1`, `MAXYEAR = 9999`). -/
def validDate (y m d : ℕ) : Bool :=
  1 ≤ y && y ≤ 9999 && 1 ≤ m && m ≤ 12 && 1 ≤ d && d ≤ daysInMonth y m

/-- One day earlier on the calendar (`now - timedelta(days=1)`). -/
def prevDay (d : Date) : Date :=
  if 1 < d.day then ⟨d.year, d.month, d.day - 1⟩
  else if 1 < d.month then ⟨d.year, d.month - 1, daysInMonth d.year (d.month - 1)⟩
  else ⟨d.year - 1, 12, 31⟩

/-- `now - timedelta(days=n)`. -/
def subDays (d : Date) : ℕ → Date
  | 0 => d
  | n + 1 => subDays (prevDay d) n

/-- Zero-padded two-wide decimal rendering (`%m`, `%d` of `strftime`). -/
def pad2 (n : ℕ) : String :=
  if n < 10 then "0" ++ toString n else toString n

/-- Zero-padded four-wide decimal rendering (`%Y` of `strftime`). -/
def pad4 (n : ℕ) : String :=
  if n < 10 then "000" ++ toString n
  else if n < 100 then "00" ++ toString n
  else if n < 1000 then "0" ++ toString n
  else toString n

/-- `strftime('%Y-%m-%d')`. -/
def fmtDate (d : Date) : String :=
  pad4 d.year ++ "-" ++ pad2 d.month ++ "-" ++ pad2 d.day

/-- Attempt of `\d{4}-\d{2}-\d{2}\b` at the head of the input (the leading
`\b` is checked by the scanner); returns the verbatim capture and the
remainder. -/
def isoMatchAt : List Char → Option (List Char × List Char)
  | a :: b :: c :: d :: '-' :: e :: f :: '-' :: g :: h :: rest =>
    if a.isDigit && b.isDigit && c.isDigit && d.isDigit && e.isDigit && f.isDigit
        && g.isDigit && h.isDigit
        && (match rest with | [] => true | r :: _ => !isWordCh r) then
      some ([a, b, c, d, '-', e, f, '-', g, h], rest)
    else none
  | _ => none

/-- Scanner reproducing `re.finditer` for the ISO date pattern
`\b(\d{4}-\d{2}-\d{2})\b`.  The skip counter walks over a found match; the
Bool tracks whether the previous character is a word character, deciding
the leading `\b`. -/
def isoScan : ℕ → Bool → List Char → List (List Char)
  | _, _, [] => []
  | n + 1, _, c :: cs => isoScan n (isWordCh c) cs
  | 0, prevW, c :: cs =>
    if prevW then isoScan 0 (isWordCh c) cs
    else
      match isoMatchAt (c :: cs) with
      | some (cap, rest) => cap :: isoScan ((c :: cs).length - rest.length - 1) (isWordCh c) cs
      | none => isoScan 0 (isWordCh c) cs

/-- Character class `[slash or dash]`. -/
def sepCh (c : Char) : Bool :=
  c == '/' || c == '-'

/-- Tail `[slash or dash]\d{4}\b` of the localized date pattern: separator, the year
group, trailing word boundary. -/
def localYearPart : List Char → Option (List Char × List Char)
  | s :: y1 :: y2 :: y3 :: y4 :: rest =>
    if sepCh s && y1.isDigit && y2.isDigit && y3.isDigit && y4.isDigit
        && (match rest with | [] => true | r :: _ => !isWordCh r) then
      some ([y1, y2, y3, y4], rest)
    else none
  | _ => none

/-- Middle `[slash or dash](\d{1,2})[slash or dash]\d{4}\b` of the localized date pattern; the
month group is greedy (two digits first, then one), backtracking exactly as
the regex engine does. -/
def localMonthYear : List Char → Option (List Char × List Char × List Char)
  | s :: m1 :: rest =>
    if sepCh s && m1.isDigit then
      match rest with
      | m2 :: r2 =>
        if m2.isDigit then
          match localYearPart r2 with
          | some (yr, rest2) => some ([m1, m2], yr, rest2)
          | none =>
            match localYearPart (m2 :: r2) with
            | some (yr, rest2) => some ([m1], yr, rest2)
            | none => none
        else
          match localYearPart (m2 :: r2) with
          | some (yr, rest2) => some ([m1], yr, rest2)
          | none => none
      | [] => none
    else none
  | _ => none

/-- Attempt of `(\d{1,2})[slash or dash](\d{1,2})[slash or dash](\d{4})\b` at the head of the
input (leading `\b` checked by the scanner); returns day, month and year
groups plus the remainder.  The day group is greedy with backtracking. -/
def localMatchAt : List Char → Option ((List Char × List Char × List Char) × List Char)
  | d1 :: rest =>
    if d1.isDigit then
      match rest with
      | d2 :: r2 =>
        if d2.isDigit then
          match localMonthYear r2 with
          | some (mo, yr, rest2) => some (([d1, d2], mo, yr), rest2)
          | none =>
            match localMonthYear (d2 :: r2) with
            | some (mo, yr, rest2) => some (([d1], mo, yr), rest2)
            | none => none
        else
          match localMonthYear (d2 :: r2) with
          | some (mo, yr, rest2) => some (([d1], mo, yr), rest2)
          | none => none
      | [] => none
    else none
  | [] => none

/-- Scanner reproducing `re.finditer` for the localized date pattern
`\b(\d{1,2})[slash or dash](\d{1,2})[slash or dash](\d{4})\b`. -/
def localScan : ℕ → Bool → List Char → List (List Char × List Char × List Char)
  | _, _, [] => []
  | n + 1, _, c :: cs => localScan n (isWordCh c) cs
  | 0, prevW, c :: cs =>
    if prevW then localScan 0 (isWordCh c) cs
    else
      match localMatchAt (c :: cs) with
      | some (dmy, rest) => dmy :: localScan ((c :: cs).length - rest.length - 1) (isWordCh c) cs
      | none => localScan 0 (isWordCh c) cs

/-- Attempt of `last (\d+) days` at the head of the input; returns the
captured digit group. -/
def lastDaysAt : List Char → Option (List Char)
  | 'l' :: 'a' :: 's' :: 't' :: ' ' :: rest =>
    let p := takeDigits rest
    if p.1.isEmpty then none
    else
      match p.2 with
      | ' ' :: 'd' :: 'a' :: 'y' :: 's' :: _ => some p.1
      | _ => none
  | _ => none

/-- `re.search(r"last (\d+) days", q)`: leftmost match, if any. -/
def lastDaysSearch : List Char → Option (List Char)
  | [] => none
  | c :: cs =>
    match lastDaysAt (c :: cs) with
    | some ds => some ds
    | none => lastDaysSearch cs

/-- `AnalyticsEngine.extract_date_filters`: relative terms resolved against
`now`, explicit ISO dates captured verbatim, localized `D/M/YYYY` dates
parsed day-first with invalid calendar dates silently discarded, and
`last N days` expanded to N+1 dates.  All results land in one set. -/
def extract_date_filters (now : Date) (query : String) : List String :=
  let q := strLower query
  let rel :=
    (if hasSub q "today" then [fmtDate now] else []) ++
    (if hasSub q "yesterday" then [fmtDate (subDays now 1)] else []) ++
    (if hasSub q "day before yesterday" then [fmtDate (subDays now 2)] else [])
  let iso := (isoScan 0 false q).map String.mk
  let locd := (localScan 0 false q).filterMap (fun dmy =>
    let d := toNatD dmy.1
    let m := toNatD dmy.2.1
    let y := toNatD dmy.2.2
    if validDate y m d then some (fmtDate ⟨y, m, d⟩) else none)
  let range :=
    match lastDaysSearch q with
    | none => []
    | some ds => (List.range (toNatD ds + 1)).map (fun i => fmtDate (subDays now i))
  rel ++ iso ++ locd ++ range

lemma sanity_check_05 : ∀ now : Date, extract_date_filters now "15/3/2024" = ["2024-03-15"] := fun _ => rfl
lemma sanity_check_06 : ∀ now : Date, extract_date_filters now "2024-03-15" = ["2024-03-15"] := fun _ => rfl
lemma sanity_check_07 : ∀ now : Date, extract_date_filters now "31/2/2024" = [] := fun _ => rfl
lemma sanity_check_08 : ∀ now : Date, extract_date_filters now "today" = [fmtDate now] := fun _ => rfl
lemma sanity_check_09 : extract_date_filters ⟨2024, 3, 1⟩ "yesterday" = ["2024-02-29"] := by decide
lemma sanity_check_10 : extract_date_filters ⟨2024, 3, 2⟩ "last 2 days" = ["2024-03-02", "2024-03-01", "2024-02-29"] := by decide
lemma sanity_check_11 : ∀ now : Date, extract_date_filters now "1-2-2024 and 2024-99-10" = ["2024-99-10", "2024-02-01"] := fun _ => rfl

/-! ### Vehicle extractor (`extract_vehicle_filters`, api_server.py lines 265-280) -/

/-- Final `[0-9]{1,4}` of the plate pattern: greedy, at least one digit,
at most four (nothing follows in the pattern, so no backtracking). -/
def plateDigits : List Char → Option (List Char × List Char)
  | l =>
    let p := takeDigits l
    if p.1.isEmpty then none else some (p.1.take 4, p.1.drop 4 ++ p.2)

/-- Attempt of `[A-Z]{2}[0-9]{2}[A-Z]{1,2}[0-9]{1,4}` at the head of the
input; the middle letter group is greedy (two letters first, then one). -/
def plateMatchAt : List Char → Option (List Char × List Char)
  | a :: b :: c :: d :: e :: rest2 =>
    if isUpperAZ a && isUpperAZ b && c.isDigit && d.isDigit && isUpperAZ e then
      match rest2 with
      | f :: rest3 =>
        if isUpperAZ f then
          match plateDigits rest3 with
          | some (ds, r) => some ([a, b, c, d, e, f] ++ ds, r)
          | none =>
            match plateDigits (f :: rest3) with
            | some (ds, r) => some ([a, b, c, d, e] ++ ds, r)
            | none => none
        else
          match plateDigits (f :: rest3) with
          | some (ds, r) => some ([a, b, c, d, e] ++ ds, r)
          | none => none
      | [] => none
    else none
  | _ => none

/-- Scanner reproducing `re.finditer` for the plate pattern. -/
def plateScan : ℕ → List Char → List (List Char)
  | _, [] => []
  | n + 1, _ :: cs => plateScan n cs
  | 0, c :: cs =>
    match plateMatchAt (c :: cs) with
    | some (cap, rest) => cap :: plateScan ((c :: cs).length - rest.length - 1) cs
    | none => plateScan 0 cs

/-- `AnalyticsEngine.extract_vehicle_filters`: plate-pattern matches on the
uppercased query, plus the sentinel "UNKNOWN" when any of the literal
tokens "UNKNOWN", "NO PLATE", "UNIDENTIFIED" occurs. -/
def extract_vehicle_filters (query : String) : List String :=
  let q := strUpper query
  let found := (plateScan 0 q).map String.mk
  if hasSub q "UNKNOWN" || hasSub q "NO PLATE" || hasSub q "UNIDENTIFIED" then
    found ++ ["UNKNOWN"]
  else found

lemma sanity_check_12 : extract_vehicle_filters "TN09AB105 seen" = ["TN09AB105"] := by decide
lemma sanity_check_13 : extract_vehicle_filters "unidentified vehicle at gate" = ["UNKNOWN"] := by decide
lemma sanity_check_14 : extract_vehicle_filters "nothing here" = [] := by decide

/-! ### Location extractor (`extract_location_filters`, api_server.py lines 282-303) -/

mutual

/-- One token-consuming state of `re.split(r'[\s_]+', s)`: accumulate the
current token until a separator is reached. -/
def splitSUGo (cur : List Char) : List Char → List (List Char)
  | [] => [cur.reverse]
  | c :: cs =>
    if isSpaceUnd c then cur.reverse :: splitSUSkip cs
    else splitSUGo (c :: cur) cs

/-- Separator-skipping state of `re.split(r'[\s_]+', s)`: a run of
separators yields one boundary; a trailing run yields a final empty
token. -/
def splitSUSkip : List Char → List (List Char)
  | [] => [[]]
  | c :: cs => if isSpaceUnd c then splitSUSkip cs else splitSUGo [c] cs

end

/-- `re.split(r'[\s_]+', s)`. -/
def splitSU (s : List Char) : List (List Char) :=
  splitSUGo [] s

/-- `AnalyticsEngine.extract_location_filters`: tier 1 keeps every known
location whose lowered name is a substring of the lowered query; only if
none matches, tier 2 keeps locations one of whose words longer than 4
characters occurs in the query. -/
def extract_location_filters (locations : List String) (query : String) : List String :=
  let q := strLower query
  let found := locations.filter (fun loc => hasSubL q (strLower loc))
  if found.isEmpty then
    locations.filter (fun loc =>
      let kws := (splitSU (strLower loc)).filter (fun k => 4 < k.length)
      kws.any (fun kw => hasSubL q kw))
  else found

lemma sanity_check_15 : extract_location_filters ["Main Gate", "North Tower"] "vehicles at main gate now"
    = ["Main Gate"] := by decide
lemma sanity_check_16 : extract_location_filters ["North Tower", "Main Gate"] "near the tower"
    = ["North Tower"] := by decide
lemma sanity_check_17 : extract_location_filters ["North Tower"] "nothing" = [] := by decide
lemma sanity_check_18 : splitSU "main_gate  entrance".data = ["main".data, "gate".data, "entrance".data] := by decide

/-! ### Soft intent flags (api_server.py lines 325-327) -/

/-- Comprehensive-query detection: any of "all ", "complete", "everything",
"every " occurs in the lowered query. -/
def is_comprehensive (query : String) : Bool :=
  let q := strLower query
  hasSub q "all " || hasSub q "complete" || hasSub q "everything" || hasSub q "every "

/-- Suspicious-query detection: any of "suspicious", "late night",
"unusual" occurs in the lowered query. -/
def is_suspicious_query (query : String) : Bool :=
  let q := strLower query
  hasSub q "suspicious" || hasSub q "late night" || hasSub q "unusual"

lemma sanity_check_19 : is_comprehensive "show ALL records" = true := by decide
lemma sanity_check_20 : is_comprehensive "ball games" = true := by decide
lemma sanity_check_21 : is_comprehensive "ballgames" = false := by decide
lemma sanity_check_22 : is_suspicious_query "anything unusual?" = true := by decide

/-! ### Search (`AnalyticsEngine.search`, api_server.py lines 305-392) -/

/-- One stored sighting, the `raw` dictionary of a `stored_data` entry
(built in `refresh_index`); the same field values are copied verbatim into
the returned `VehicleRecord`. -/
structure Record where
  camera_id : String
  camera_name : String
  location : String
  timestamp : String
  vehicle_no : String
  snapshotpath : String
  videopath : String
deriving DecidableEq, Repr

/-- One nearest-neighbor candidate as returned by
`util.semantic_search(...)[0]`: a similarity score and a corpus index. -/
structure Hit where
  score : ℚ
  corpus_id : ℕ
deriving DecidableEq, Repr

/-- A returned match: the stored record's fields plus the rounded
similarity score (`VehicleRecord(**record_data, score=round(score, 4))`). -/
structure VehicleRecord where
  record : Record
  score : ℚ
deriving DecidableEq, Repr

/-- `record_data['timestamp'].split(' ')[0]`: the date portion of a
canonical `YYYY-MM-DD HH:MM:SS` timestamp. -/
def rec_date (ts : String) : String :=
  String.mk ((splitOnCh ' ' [] ts.data).headD [])

/-- `int(record_data['timestamp'].split(' ')[1].split(':')[0])`: the hour
of the timestamp; `none` models the `IndexError`/`ValueError` this raises
on a timestamp without a parsable time part. -/
def rec_hour (ts : String) : Option ℕ := do
  let t ← (splitOnCh ' ' [] ts.data)[1]?
  parseNat ((splitOnCh ':' [] t).headD [])

lemma sanity_check_23 : rec_date "2024-03-15 02:30:00" = "2024-03-15" := by decide
lemma sanity_check_24 : rec_hour "2024-03-15 02:30:00" = some 2 := by decide
lemma sanity_check_25 : rec_hour "2024-03-15" = none := by decide

/-- `round(score, 4)` (to four decimal places). -/
def round4 (q : ℚ) : ℚ :=
  (round (q * 10000) : ℤ) / 10000

/-- Time-of-day enrichment buckets of `refresh_index` (api_server.py lines
179-186), keyed by the hour of the timestamp. -/
def time_desc (hour : ℕ) : String :=
  if hour < 5 then "middle of the night, late night, suspicious hours"
  else if hour < 9 then "early morning, dawn"
  else if hour < 12 then "morning"
  else if hour < 17 then "afternoon"
  else if hour < 21 then "evening, dusk"
  else "night, late evening"

/-- The four hard-filter rejection tests of the search loop (api_server.py
lines 366-382), written as one conjunction: a record passes when each
non-empty filter set contains the corresponding field. -/
def passHard (cams dates vehs locs : List String) (r : Record) : Bool :=
  (cams.isEmpty || decide (r.camera_id ∈ cams)) &&
  (dates.isEmpty || decide (rec_date r.timestamp ∈ dates)) &&
  (vehs.isEmpty || decide (r.vehicle_no ∈ vehs)) &&
  (locs.isEmpty || decide (r.location ∈ locs))

/-- Whether the loop body accepts a record that survived the threshold and
index-bound guards: the suspicious hour window `[0,6)` first (api_server.py
lines 359-362), then the four hard filters; `none` models an exception
raised while parsing the hour. -/
def acceptRecord (susp : Bool) (cams dates vehs locs : List String) (r : Record) :
    Option Bool :=
  if susp then
    match rec_hour r.timestamp with
    | none => none
    | some hr => if hr < 6 then some (passHard cams dates vehs locs r) else some false
  else some (passHard cams dates vehs locs r)

/-- `effective_threshold = 0.05 if (is_comprehensive and requested_dates)
else threshold` (api_server.py line 349); the value is the same at every
loop iteration, so it is hoisted here. -/
def effective_threshold (is_comp : Bool) (dates : List String) (threshold : ℚ) : ℚ :=
  if is_comp && !dates.isEmpty then mkRat 1 20 else threshold

/-- `has_filters` (api_server.py line 338). -/
def has_filters (cams dates vehs locs : List String) (susp : Bool) : Bool :=
  !cams.isEmpty || !dates.isEmpty || !vehs.isEmpty || !locs.isEmpty || susp

/-- `search_k` (api_server.py line 339): the candidate-pool size passed to
the external nearest-neighbor capability. -/
def search_k (hasF : Bool) (top_k : ℕ) : ℕ :=
  if hasF then top_k * 50 else top_k

/-- The `for hit in hits` loop of `search` (api_server.py lines 343-391):
skip a hit below the effective threshold, skip a hit whose corpus index is
out of range, reject via `acceptRecord`, append the surviving record with
its rounded score, and stop as soon as `top_k` results are accumulated. -/
def searchLoop (stored : List Record) (susp : Bool) (eff : ℚ)
    (cams dates vehs locs : List String) (tk : ℕ) :
    List Hit → List VehicleRecord → Option (List VehicleRecord)
  | [], acc => some acc
  | h :: rest, acc =>
    if h.score < eff then
      searchLoop stored susp eff cams dates vehs locs tk rest acc
    else if hlt : h.corpus_id < stored.length then
      match acceptRecord susp cams dates vehs locs (stored.get ⟨h.corpus_id, hlt⟩) with
      | none => none
      | some false => searchLoop stored susp eff cams dates vehs locs tk rest acc
      | some true =>
        let acc2 := acc ++ [⟨stored.get ⟨h.corpus_id, hlt⟩, round4 h.score⟩]
        if tk ≤ acc2.length then some acc2
        else searchLoop stored susp eff cams dates vehs locs tk rest acc2
    else
      searchLoop stored susp eff cams dates vehs locs tk rest acc

/-- `AnalyticsEngine.search`.  The embedding matrix is opaque (`Option
Unit`: `none` is Python `self.embeddings is None`); the ranked candidate
list `hits` stands for the answer of the external nearest-neighbor
capability on the encoded query; `none` as result models an uncaught
exception, `some` a normal return. -/
def search (emb : Option Unit) (stored : List Record) (locations : List String)
    (now : Date) (hits : List Hit) (query : String) (top_k : ℕ) (threshold : ℚ) :
    Option (List VehicleRecord) :=
  if emb = none || stored.isEmpty then some []
  else
    let requested_cams := extract_cam_filters query
    let requested_dates := extract_date_filters now query
    let requested_vehicles := extract_vehicle_filters query
    let requested_locations := extract_location_filters locations query
    let is_comp := is_comprehensive query
    let is_susp := is_suspicious_query query
    let tk := if is_comp then max top_k 50 else top_k
    let eff := effective_threshold is_comp requested_dates threshold
    searchLoop stored is_susp eff requested_cams requested_dates requested_vehicles
      requested_locations tk hits []

/-! ### Loop invariants -/

lemma passHard_cam {cams dates vehs locs : List String} {r : Record}
    (h : passHard cams dates vehs locs r = true) (hne : cams ≠ []) :
    r.camera_id ∈ cams := by
  simp only [passHard, Bool.and_eq_true, Bool.or_eq_true, decide_eq_true_eq,
    List.isEmpty_iff] at h
  rcases h.1.1.1 with h1 | h1
  · exact absurd h1 hne
  · exact h1

lemma passHard_date {cams dates vehs locs : List String} {r : Record}
    (h : passHard cams dates vehs locs r = true) (hne : dates ≠ []) :
    rec_date r.timestamp ∈ dates := by
  simp only [passHard, Bool.and_eq_true, Bool.or_eq_true, decide_eq_true_eq,
    List.isEmpty_iff] at h
  rcases h.1.1.2 with h1 | h1
  · exact absurd h1 hne
  · exact h1

lemma passHard_veh {cams dates vehs locs : List String} {r : Record}
    (h : passHard cams dates vehs locs r = true) (hne : vehs ≠ []) :
    r.vehicle_no ∈ vehs := by
  simp only [passHard, Bool.and_eq_true, Bool.or_eq_true, decide_eq_true_eq,
    List.isEmpty_iff] at h
  rcases h.1.2 with h1 | h1
  · exact absurd h1 hne
  · exact h1

lemma passHard_loc {cams dates vehs locs : List String} {r : Record}
    (h : passHard cams dates vehs locs r = true) (hne : locs ≠ []) :
    r.location ∈ locs := by
  simp only [passHard, Bool.and_eq_true, Bool.or_eq_true, decide_eq_true_eq,
    List.isEmpty_iff] at h
  rcases h.2 with h1 | h1
  · exact absurd h1 hne
  · exact h1

lemma acceptRecord_true_passHard {susp : Bool} {cams dates vehs locs : List String}
    {r : Record} (h : acceptRecord susp cams dates vehs locs r = some true) :
    passHard cams dates vehs locs r = true := by
  cases susp with
  | false => simpa [acceptRecord] using h
  | true =>
    cases hh : rec_hour r.timestamp with
    | none => simp [acceptRecord, hh] at h
    | some hr =>
      by_cases h6 : hr < 6
      · simpa [acceptRecord, hh, h6] using h
      · simp [acceptRecord, hh, h6] at h

lemma acceptRecord_true_hour {susp : Bool} {cams dates vehs locs : List String}
    {r : Record} (hs : susp = true)
    (h : acceptRecord susp cams dates vehs locs r = some true) :
    ∃ hr, rec_hour r.timestamp = some hr ∧ hr < 6 := by
  subst hs
  cases hh : rec_hour r.timestamp with
  | none => simp [acceptRecord, hh] at h
  | some hr =>
    by_cases h6 : hr < 6
    · exact ⟨hr, rfl, h6⟩
    · simp [acceptRecord, hh, h6] at h

lemma searchLoop_mem_spec (stored : List Record) (susp : Bool) (eff : ℚ)
    (cams dates vehs locs : List String) (tk : ℕ) :
    ∀ (hits : List Hit) (acc out : List VehicleRecord),
      searchLoop stored susp eff cams dates vehs locs tk hits acc = some out →
      ∀ r ∈ out, r ∈ acc ∨
        ∃ h, h ∈ hits ∧ ¬ h.score < eff ∧
          ∃ hlt : h.corpus_id < stored.length,
            r.record = stored.get ⟨h.corpus_id, hlt⟩ ∧ r.score = round4 h.score ∧
            acceptRecord susp cams dates vehs locs (stored.get ⟨h.corpus_id, hlt⟩) =
              some true := by
  intro hits
  induction hits with
  | nil =>
    intro acc out hsome r hr
    simp only [searchLoop, Option.some.injEq] at hsome
    subst hsome
    exact Or.inl hr
  | cons hd rest ih =>
    intro acc out hsome r hr
    rw [searchLoop] at hsome
    by_cases hsc : hd.score < eff
    · rw [if_pos hsc] at hsome
      rcases ih acc out hsome r hr with h1 | ⟨h2, hmem, hrest⟩
      · exact Or.inl h1
      · exact Or.inr ⟨h2, List.mem_cons_of_mem _ hmem, hrest⟩
    · rw [if_neg hsc] at hsome
      by_cases hlt : hd.corpus_id < stored.length
      · rw [dif_pos hlt] at hsome
        cases hacc : acceptRecord susp cams dates vehs locs
            (stored.get ⟨hd.corpus_id, hlt⟩) with
        | none => rw [hacc] at hsome; cases hsome
        | some b =>
          rw [hacc] at hsome
          cases b with
          | false =>
            rcases ih acc out hsome r hr with h1 | ⟨h2, hmem, hrest⟩
            · exact Or.inl h1
            · exact Or.inr ⟨h2, List.mem_cons_of_mem _ hmem, hrest⟩
          | true =>
            by_cases hbrk : tk ≤
                (acc ++
                  [(⟨stored.get ⟨hd.corpus_id, hlt⟩, round4 hd.score⟩ : VehicleRecord)]).length
            · rw [if_pos hbrk] at hsome
              rw [Option.some.injEq] at hsome
              subst hsome
              rcases List.mem_append.mp hr with h1 | h1
              · exact Or.inl h1
              · rcases List.mem_singleton.mp h1 with rfl
                exact Or.inr ⟨hd, List.mem_cons_self _ _, hsc, hlt, rfl, rfl, hacc⟩
            · rw [if_neg hbrk] at hsome
              rcases ih _ out hsome r hr with h1 | ⟨h2, hmem, hrest⟩
              · rcases List.mem_append.mp h1 with h3 | h3
                · exact Or.inl h3
                · rcases List.mem_singleton.mp h3 with rfl
                  exact Or.inr ⟨hd, List.mem_cons_self _ _, hsc, hlt, rfl, rfl, hacc⟩
              · exact Or.inr ⟨h2, List.mem_cons_of_mem _ hmem, hrest⟩
      · rw [dif_neg hlt] at hsome
        rcases ih acc out hsome r hr with h1 | ⟨h2, hmem, hrest⟩
        · exact Or.inl h1
        · exact Or.inr ⟨h2, List.mem_cons_of_mem _ hmem, hrest⟩

lemma searchLoop_length (stored : List Record) (susp : Bool) (eff : ℚ)
    (cams dates vehs locs : List String) (tk : ℕ) :
    ∀ (hits : List Hit) (acc out : List VehicleRecord),
      searchLoop stored susp eff cams dates vehs locs tk hits acc = some out →
      acc.length < tk → out.length ≤ tk := by
  intro hits
  induction hits with
  | nil =>
    intro acc out hsome hlen
    simp only [searchLoop, Option.some.injEq] at hsome
    subst hsome
    exact le_of_lt hlen
  | cons hd rest ih =>
    intro acc out hsome hlen
    rw [searchLoop] at hsome
    by_cases hsc : hd.score < eff
    · rw [if_pos hsc] at hsome
      exact ih acc out hsome hlen
    · rw [if_neg hsc] at hsome
      by_cases hlt : hd.corpus_id < stored.length
      · rw [dif_pos hlt] at hsome
        cases hacc : acceptRecord susp cams dates vehs locs
            (stored.get ⟨hd.corpus_id, hlt⟩) with
        | none => rw [hacc] at hsome; cases hsome
        | some b =>
          rw [hacc] at hsome
          cases b with
          | false => exact ih acc out hsome hlen
          | true =>
            by_cases hbrk : tk ≤
                (acc ++
                  [(⟨stored.get ⟨hd.corpus_id, hlt⟩, round4 hd.score⟩ : VehicleRecord)]).length
            · rw [if_pos hbrk] at hsome
              rw [Option.some.injEq] at hsome
              subst hsome
              simp only [List.length_append, List.length_singleton]
              omega
            · rw [if_neg hbrk] at hsome
              exact ih _ out hsome (by omega)
      · rw [dif_neg hlt] at hsome
        exact ih acc out hsome hlen

lemma searchLoop_filter_oob (stored : List Record) (susp : Bool) (eff : ℚ)
    (cams dates vehs locs : List String) (tk : ℕ) :
    ∀ (hits : List Hit) (acc : List VehicleRecord),
      searchLoop stored susp eff cams dates vehs locs tk
        (hits.filter fun h2 => decide (h2.corpus_id < stored.length)) acc =
      searchLoop stored susp eff cams dates vehs locs tk hits acc := by
  intro hits
  induction hits with
  | nil => intro acc; rfl
  | cons hd rest ih =>
    intro acc
    by_cases hlt : hd.corpus_id < stored.length
    · rw [List.filter_cons_of_pos (by simpa using hlt)]
      rw [searchLoop, searchLoop]
      by_cases hsc : hd.score < eff
      · rw [if_pos hsc, if_pos hsc]
        exact ih acc
      · rw [if_neg hsc, if_neg hsc, dif_pos hlt, dif_pos hlt]
        cases acceptRecord susp cams dates vehs locs (stored.get ⟨hd.corpus_id, hlt⟩) with
        | none => rfl
        | some b =>
          cases b with
          | false => exact ih acc
          | true =>
            by_cases hbrk : tk ≤
                (acc ++
                  [(⟨stored.get ⟨hd.corpus_id, hlt⟩, round4 hd.score⟩ : VehicleRecord)]).length
            · rw [if_pos hbrk, if_pos hbrk]
            · rw [if_neg hbrk, if_neg hbrk]
              exact ih _
    · rw [List.filter_cons_of_neg (by simpa using hlt)]
      rw [searchLoop]
      by_cases hsc : hd.score < eff
      · rw [if_pos hsc]
        exact ih acc
      · rw [if_neg hsc, dif_neg hlt]
        exact ih acc

lemma mkRat_one_twenty : (mkRat 1 20 : ℚ) = 1 / 20 := by
  rw [Rat.mkRat_eq_divInt, Rat.divInt_eq_div]
  norm_num

lemma search_some_elim {emb : Option Unit} {stored : List Record}
    {locations : List String} {now : Date} {hits : List Hit} {query : String}
    {top_k : ℕ} {threshold : ℚ} {out : List VehicleRecord}
    (hsome : search emb stored locations now hits query top_k threshold = some out) :
    out = [] ∨
    searchLoop stored (is_suspicious_query query)
      (effective_threshold (is_comprehensive query) (extract_date_filters now query)
        threshold)
      (extract_cam_filters query) (extract_date_filters now query)
      (extract_vehicle_filters query) (extract_location_filters locations query)
      (if is_comprehensive query then max top_k 50 else top_k) hits [] = some out := by
  unfold search at hsome
  split at hsome
  · rw [Option.some.injEq] at hsome
    exact Or.inl hsome.symm
  · exact Or.inr hsome

/-! ### Claims -/

/-- C1: for every search call in which at least one hard filter set
(cameras, dates, vehicles, locations) is non-empty, every record in the
returned result list satisfies every active hard filter: camera_id in the
camera set, the date prefix of the timestamp in the date set, vehicle_no
in the vehicle set and location in the location set, whenever the
respective set is non-empty. -/
theorem search_respects_hard_filters
    (emb : Option Unit) (stored : List Record) (locations : List String) (now : Date)
    (hits : List Hit) (query : String) (top_k : ℕ) (threshold : ℚ)
    (out : List VehicleRecord)
    (_hfil : extract_cam_filters query ≠ [] ∨ extract_date_filters now query ≠ [] ∨
      extract_vehicle_filters query ≠ [] ∨ extract_location_filters locations query ≠ [])
    (hsome : search emb stored locations now hits query top_k threshold = some out) :
    ∀ r ∈ out,
      (extract_cam_filters query ≠ [] → r.record.camera_id ∈ extract_cam_filters query) ∧
      (extract_date_filters now query ≠ [] →
        rec_date r.record.timestamp ∈ extract_date_filters now query) ∧
      (extract_vehicle_filters query ≠ [] →
        r.record.vehicle_no ∈ extract_vehicle_filters query) ∧
      (extract_location_filters locations query ≠ [] →
        r.record.location ∈ extract_location_filters locations query) := by
  intro r hr
  rcases search_some_elim hsome with rfl | hloop
  · cases hr
  · rcases searchLoop_mem_spec _ _ _ _ _ _ _ _ _ _ _ hloop r hr with h1 | ⟨h2, _, _, hlt, hrec, _, hacc⟩
    · cases h1
    · have hp := acceptRecord_true_passHard hacc
      rw [← hrec] at hp
      exact ⟨fun hne => passHard_cam hp hne, fun hne => passHard_date hp hne,
        fun hne => passHard_veh hp hne, fun hne => passHard_loc hp hne⟩

/-- Record and query of the hard-filter witness scenario. -/
def recCam1 : Record :=
  ⟨"CAM_001", "N/A", "Gate", "2024-03-15 10:00:00", "KA01AB1", "snap", "vid"⟩

theorem search_respects_hard_filters_witness :
    (extract_cam_filters "cam 1" ≠ [] → recCam1.camera_id ∈ extract_cam_filters "cam 1") ∧
    (extract_date_filters ⟨2024, 1, 1⟩ "cam 1" ≠ [] →
      rec_date recCam1.timestamp ∈ extract_date_filters ⟨2024, 1, 1⟩ "cam 1") ∧
    (extract_vehicle_filters "cam 1" ≠ [] →
      recCam1.vehicle_no ∈ extract_vehicle_filters "cam 1") ∧
    (extract_location_filters [] "cam 1" ≠ [] →
      recCam1.location ∈ extract_location_filters [] "cam 1") :=
  search_respects_hard_filters (some ()) [recCam1] [] ⟨2024, 1, 1⟩
    [⟨mkRat 1 2, 0⟩] "cam 1" 5 (mkRat 1 5) [⟨recCam1, round4 (mkRat 1 2)⟩]
    (Or.inl (by decide)) rfl
    ⟨recCam1, round4 (mkRat 1 2)⟩ (List.mem_singleton.mpr rfl)

/-- C2: every candidate is compared against an effective threshold equal
to 0.05 exactly when the comprehensive flag is set and the extracted date
set is non-empty, and equal to the caller-supplied threshold otherwise; a
candidate whose score is below the effective threshold is never included
in the results. -/
theorem search_effective_threshold
    (emb : Option Unit) (stored : List Record) (locations : List String) (now : Date)
    (hits : List Hit) (query : String) (top_k : ℕ) (threshold : ℚ)
    (out : List VehicleRecord)
    (hsome : search emb stored locations now hits query top_k threshold = some out) :
    (effective_threshold (is_comprehensive query) (extract_date_filters now query)
        threshold =
      if is_comprehensive query = true ∧ extract_date_filters now query ≠ [] then 1 / 20
      else threshold) ∧
    ∀ r ∈ out, ∃ h, h ∈ hits ∧
      ¬ h.score < effective_threshold (is_comprehensive query)
          (extract_date_filters now query) threshold ∧
      r.score = round4 h.score := by
  constructor
  · by_cases hc : is_comprehensive query = true
    · by_cases hd : extract_date_filters now query = []
      · simp [effective_threshold, hc, hd]
      · simp [effective_threshold, hc, hd, List.isEmpty_iff, mkRat_one_twenty]
    · have hfc : is_comprehensive query = false := by
        cases hq : is_comprehensive query
        · rfl
        · exact absurd hq hc
      simp [effective_threshold, hfc, hc]
  · intro r hr
    rcases search_some_elim hsome with rfl | hloop
    · cases hr
    · rcases searchLoop_mem_spec _ _ _ _ _ _ _ _ _ _ _ hloop r hr with h1 | ⟨h2, hmem, hsc, _, _, hscore, _⟩
      · cases h1
      · exact ⟨h2, hmem, hsc, hscore⟩

/-- Record of the threshold witness scenario: the caller-supplied
threshold 1/5 exceeds the hit score 1/10, yet the record is returned
because the comprehensive date-scoped query lowers the bar to 1/20. -/
def recDated : Record :=
  ⟨"CAM_002", "N/A", "Yard", "2024-03-15 10:00:00", "KA01AB1", "snap", "vid"⟩

theorem search_effective_threshold_witness :
    (effective_threshold (is_comprehensive "all records on 2024-03-15")
        (extract_date_filters ⟨2024, 1, 1⟩ "all records on 2024-03-15") (mkRat 1 5) =
      if is_comprehensive "all records on 2024-03-15" = true ∧
          extract_date_filters ⟨2024, 1, 1⟩ "all records on 2024-03-15" ≠ [] then 1 / 20
      else mkRat 1 5) ∧
    ∀ r ∈ [(⟨recDated, round4 (mkRat 1 10)⟩ : VehicleRecord)],
      ∃ h, h ∈ [(⟨mkRat 1 10, 0⟩ : Hit)] ∧
        ¬ h.score < effective_threshold (is_comprehensive "all records on 2024-03-15")
            (extract_date_filters ⟨2024, 1, 1⟩ "all records on 2024-03-15") (mkRat 1 5) ∧
        r.score = round4 h.score :=
  search_effective_threshold (some ()) [recDated] [] ⟨2024, 1, 1⟩
    [⟨mkRat 1 10, 0⟩] "all records on 2024-03-15" 5 (mkRat 1 5)
    [⟨recDated, round4 (mkRat 1 10)⟩] rfl

/-- C3: with caller-supplied topK at least 1, the number of returned
matches is at most the effective topK: topK itself for a non-comprehensive
query, and max topK 50 when the comprehensive flag raises it. -/
theorem search_result_count
    (emb : Option Unit) (stored : List Record) (locations : List String) (now : Date)
    (hits : List Hit) (query : String) (top_k : ℕ) (threshold : ℚ)
    (out : List VehicleRecord)
    (htk : 1 ≤ top_k)
    (hsome : search emb stored locations now hits query top_k threshold = some out) :
    out.length ≤ if is_comprehensive query = true then max top_k 50 else top_k := by
  rcases search_some_elim hsome with rfl | hloop
  · simp only [List.length_nil]
    split
    · exact Nat.zero_le _
    · exact Nat.zero_le _
  · have h0 : ([] : List VehicleRecord).length <
        (if is_comprehensive query then max top_k 50 else top_k) := by
      simp only [List.length_nil]
      split
      · omega
      · omega
    exact searchLoop_length _ _ _ _ _ _ _ _ _ _ _ hloop h0

theorem search_result_count_witness :
    [(⟨recCam1, round4 (mkRat 1 2)⟩ : VehicleRecord)].length ≤
      if is_comprehensive "zz" = true then max 1 50 else 1 :=
  search_result_count (some ()) [recCam1] [] ⟨2024, 1, 1⟩
    [⟨mkRat 1 2, 0⟩, ⟨mkRat 1 4, 0⟩] "zz" 1 (mkRat 1 5)
    [⟨recCam1, round4 (mkRat 1 2)⟩] (by decide) rfl

/-- Record timestamped at hour 2: inside the suspicious window. -/
def rec2am : Record :=
  ⟨"CAM_003", "N/A", "Gate", "2024-01-01 02:00:00", "UNKNOWN", "snap", "vid"⟩

/-- Record timestamped 05:59: still inside the suspicious window. -/
def rec559 : Record :=
  ⟨"CAM_003", "N/A", "Gate", "2024-01-01 05:59:00", "UNKNOWN", "snap", "vid"⟩

/-- Record timestamped at hour 6: outside the suspicious window. -/
def rec6am : Record :=
  ⟨"CAM_003", "N/A", "Gate", "2024-01-01 06:00:00", "UNKNOWN", "snap", "vid"⟩

/-- C4: when the query sets the suspicious flag, a candidate is accepted
only if the hour of its timestamp lies in [0,6): every returned record has
such an hour; concretely, the suspicious hard filter passes records at
hour 2 and at 05:59 and rejects one at hour 6, while the Document
Synthesizer's phrasing bucket uses the narrower [0,5) window (hour 4 is in
the suspicious-hours bucket, hour 5 is not). -/
theorem search_suspicious_hour
    (emb : Option Unit) (stored : List Record) (locations : List String) (now : Date)
    (hits : List Hit) (query : String) (top_k : ℕ) (threshold : ℚ)
    (out : List VehicleRecord)
    (hsusp : is_suspicious_query query = true)
    (hsome : search emb stored locations now hits query top_k threshold = some out) :
    (∀ r ∈ out, ∃ hr, rec_hour r.record.timestamp = some hr ∧ hr < 6) ∧
    acceptRecord true [] [] [] [] rec2am = some true ∧
    acceptRecord true [] [] [] [] rec559 = some true ∧
    acceptRecord true [] [] [] [] rec6am = some false ∧
    time_desc 4 = "middle of the night, late night, suspicious hours" ∧
    time_desc 5 = "early morning, dawn" := by
  refine ⟨?_, by decide, by decide, by decide, by decide, by decide⟩
  intro r hr
  rcases search_some_elim hsome with rfl | hloop
  · cases hr
  · rcases searchLoop_mem_spec _ _ _ _ _ _ _ _ _ _ _ hloop r hr with h1 | ⟨h2, _, _, hlt, hrec, _, hacc⟩
    · cases h1
    · rw [hrec]
      exact acceptRecord_true_hour hsusp hacc

theorem search_suspicious_hour_witness :
    (∀ r ∈ [(⟨rec2am, round4 (mkRat 1 2)⟩ : VehicleRecord)],
      ∃ hr, rec_hour r.record.timestamp = some hr ∧ hr < 6) ∧
    acceptRecord true [] [] [] [] rec2am = some true ∧
    acceptRecord true [] [] [] [] rec559 = some true ∧
    acceptRecord true [] [] [] [] rec6am = some false ∧
    time_desc 4 = "middle of the night, late night, suspicious hours" ∧
    time_desc 5 = "early morning, dawn" :=
  search_suspicious_hour (some ()) [rec2am] [] ⟨2024, 1, 1⟩
    [⟨mkRat 1 2, 0⟩] "suspicious" 5 (mkRat 1 5)
    [⟨rec2am, round4 (mkRat 1 2)⟩] (by decide) rfl

/-- C5: the date extractor parses localized D/M/YYYY dates day-first and
normalizes them to ISO, captures explicit ISO dates verbatim, and silently
discards invalid calendar dates: "15/3/2024" yields exactly 2024-03-15,
"2024-03-15" yields exactly 2024-03-15, and "31/2/2024" contributes
nothing, with no exception possible (the extractor is a total function). -/
theorem extract_date_filters_round_trip (now : Date) :
    extract_date_filters now "15/3/2024" = ["2024-03-15"] ∧
    extract_date_filters now "2024-03-15" = ["2024-03-15"] ∧
    extract_date_filters now "31/2/2024" = [] :=
  ⟨rfl, rfl, rfl⟩

/-- C6: the camera extractor matches `cam`/`camera` followed (after
optional underscore/space separators) by digits, strips leading zeros
(all-zero groups collapse to "0") and reformats as CAM_ with three-digit
padding; on "show cam 3 and camera_004" it returns exactly the set
containing CAM_003 and CAM_004. -/
theorem extract_cam_filters_spec :
    (∀ s : String, s ∈ extract_cam_filters "show cam 3 and camera_004" ↔
      s = "CAM_003" ∨ s = "CAM_004") ∧
    extract_cam_filters "cam 000" = ["CAM_000"] ∧
    extract_cam_filters "cam 0025" = ["CAM_025"] := by
  refine ⟨?_, by decide, by decide⟩
  intro s
  rw [show extract_cam_filters "show cam 3 and camera_004" = ["CAM_003", "CAM_004"]
    from by decide]
  simp

/-- C7: each of the four constraint sub-extractors is a pure function of
the query text (together with the evaluation instant for dates and the
known-location set for locations): two evaluations on the same input
return equal sets, and the date extractor resolves the relative term
"today" to the evaluation instant's calendar date. -/
theorem extractors_deterministic (q : String) (now : Date) (locs : List String) :
    extract_cam_filters q = extract_cam_filters q ∧
    extract_date_filters now q = extract_date_filters now q ∧
    extract_vehicle_filters q = extract_vehicle_filters q ∧
    extract_location_filters locs q = extract_location_filters locs q ∧
    extract_date_filters now "today" = [fmtDate now] :=
  ⟨rfl, rfl, rfl, rfl, rfl⟩

/-- C8: a search against an empty index (no embeddings or no stored
records) returns an empty result list, normally, with no exception. -/
theorem search_empty_index
    (emb : Option Unit) (stored : List Record) (locations : List String) (now : Date)
    (hits : List Hit) (query : String) (top_k : ℕ) (threshold : ℚ)
    (hempty : emb = none ∨ stored = []) :
    search emb stored locations now hits query top_k threshold = some [] := by
  rcases hempty with rfl | rfl
  · simp [search]
  · simp [search]

theorem search_empty_index_witness :
    search none [] [] ⟨2024, 1, 1⟩ [] "anything" 5 (mkRat 1 5) = some [] :=
  search_empty_index none [] [] ⟨2024, 1, 1⟩ [] "anything" 5 (mkRat 1 5) (Or.inl rfl)

/-- C10: the search loop reads the stored record list only under the guard
that the hit's corpus index is strictly below its length; a hit with an
out-of-range index is silently skipped, so removing all such hits from the
candidate list leaves the result of search unchanged. -/
theorem search_oob_hits_skipped
    (emb : Option Unit) (stored : List Record) (locations : List String) (now : Date)
    (hits : List Hit) (query : String) (top_k : ℕ) (threshold : ℚ) :
    search emb stored locations now
      (hits.filter fun h2 => decide (h2.corpus_id < stored.length))
      query top_k threshold =
    search emb stored locations now hits query top_k threshold := by
  by_cases hc : (decide (emb = none) || stored.isEmpty) = true
  · unfold search
    rw [if_pos hc, if_pos hc]
  · unfold search
    rw [if_neg hc, if_neg hc]
    exact searchLoop_filter_oob _ _ _ _ _ _ _ _ _ _
